import Mathlib

/-!
Verification of the Elio chat client's conversation engine, remote session
client, history store, attachment codec and suggestion provider.

The definitions below are a shallow embedding of the TypeScript source:
`types.ts` (data model), `services/geminiService.ts` (remote session client
and suggestion provider) and `App.tsx` (conversation engine, attachment
codec and history store).

Modelling conventions:
* JavaScript string ids produced by `Date.now().toString()` are modelled by
  their numeric clock value (`Nat`), since `toString` is injective on the
  naturals; equality and disequality of ids are preserved exactly.
* All `Date.now()` calls in one synchronous prologue are modelled by a single
  clock value `now`; the catch handler's call is a separate value `errNow`.
* JS string operations (`trim`, `slice`, `length`, `split`) are modelled at
  character granularity on `List Char`.
* The React `setX` state updates are modelled by explicit state passing; a
  chunk callback firing on an empty timeline dereferences `undefined` in the
  source (a TypeError), modelled as `none`.
-/

namespace Elio

/-- Sender of a chat message (`types.ts`, enum `Sender`). -/
inductive Sender where
  | user
  | ai
deriving DecidableEq

/-- An encoded file attachment (`types.ts`, interface `Attachment`). -/
structure Attachment where
  mimeType : String
  data : String
  fileName : String
deriving DecidableEq

/-- A chat message (`types.ts`, interface `Message`). The optional
`isThinking` flag is omitted: no code path in the repository sets it. -/
structure Message where
  id : Nat
  text : String
  sender : Sender
  timestamp : Nat
  attachments : Option (List Attachment) := none
deriving DecidableEq

/-- A persisted conversation (`types.ts`, interface `ChatHistoryItem`). -/
structure ChatHistoryItem where
  id : Nat
  title : String
  messages : List Message
  timestamp : Nat
deriving DecidableEq

/-- The React state of `App` that the claims concern (`App.tsx` useState
hooks). Presentation-only state (`hasStarted`, `isSidebarOpen`,
`useThinking`, `suggestions`) is omitted. -/
structure AppState where
  messages : List Message
  inputText : String
  attachments : List Attachment
  isLoading : Bool
  activeChatId : Option Nat
  history : List ChatHistoryItem
deriving DecidableEq

/-! ### JS string primitives -/

/-- JS `String.prototype.trim()`: drop whitespace from both ends. -/
def jsTrim (s : String) : String :=
  ((s.toList.dropWhile Char.isWhitespace).reverse.dropWhile Char.isWhitespace).reverse.asString

/-- JS `String.prototype.slice(0, n)`, at character granularity. -/
def jsSlice (s : String) (n : Nat) : String :=
  (s.toList.take n).asString

/-- JS `String.prototype.length`, at character granularity. -/
def jsLength (s : String) : Nat :=
  s.toList.length

/-! ### Attachment codec (`App.tsx`, `fileToBase64`) -/

/-- JS `String.prototype.split(sep)` for a single-character separator,
restricted to the comma used by `fileToBase64`. -/
def splitOnComma : List Char → List (List Char)
  | [] => [[]]
  | c :: cs =>
    let rest := splitOnComma cs
    if c = ',' then [] :: rest
    else
      match rest with
      | [] => [[c]]
      | seg :: segs => (c :: seg) :: segs

/-- `fileToBase64` (`App.tsx`): given the FileReader data URL, return
`reader.result.split on the comma[1]`, i.e. everything after the first comma.
`none` models the JS `undefined` obtained when the string has no comma. -/
def fileToBase64 (result : String) : Option String :=
  ((splitOnComma result.toList)[1]?).map List.asString

/-! ### Remote session client payload (`services/geminiService.ts`) -/

/-- One part of a multipart request (`Part` as used by `sendMessageStream`). -/
structure InlinePayload where
  mimeType : String
  data : String
deriving DecidableEq

/-- A request part: a text part or an inline-data part. -/
inductive ReqPart where
  | textPart (t : String)
  | inlineData (payload : InlinePayload)
deriving DecidableEq

/-- The `message` payload of `sendMessageStream`: a bare string or an ordered
parts array. -/
inductive MessageContent where
  | raw (text : String)
  | parts (ps : List ReqPart)
deriving DecidableEq

/-- Payload construction in `sendMessageStream` (`geminiService.ts`): with no
attachments the payload is the raw text; otherwise start from the optional
text part (pushed only when `text` is truthy, i.e. non-empty) and push one
inline-data part per attachment in order (`attachments.forEach`). -/
def buildMessageContent (text : String) (attachments : List Attachment) : MessageContent :=
  if attachments.length > 0 then
    let parts0 : List ReqPart := if text == "" then [] else [ReqPart.textPart text]
    MessageContent.parts
      (attachments.foldl (fun ps att => ps ++ [ReqPart.inlineData ⟨att.mimeType, att.data⟩]) parts0)
  else
    MessageContent.raw text

/-- Chunk delivery in `sendMessageStream`: `onChunk` is invoked exactly for
the chunks whose `text` is truthy (non-empty), in stream order. -/
def deliveredChunks (raw : List String) : List String :=
  raw.filter (fun c => c != "")

/-! ### Suggestion provider (`services/geminiService.ts`, `generateSuggestions`) -/

/-- A starter-prompt suggestion (`{icon, text}`). -/
structure Suggestion where
  icon : String
  text : String
deriving DecidableEq

/-- The fixed fallback returned from the catch handler of
`generateSuggestions`. -/
def fallbackSuggestions : List Suggestion :=
  [ { icon := "🐍", text := "Write a Python script for web scraping" },
    { icon := "🎨", text := "Explain CSS Grid vs Flexbox" },
    { icon := "🐛", text := "Debug this React useEffect hook" },
    { icon := "📊", text := "Visualize data with Matplotlib" } ]

/-- Outcome of the non-streaming remote call made by `generateSuggestions`:
it either rejects, or resolves with an optional `response.text`. -/
inductive RemoteTextResult where
  | ok (text : Option String)
  | err
deriving DecidableEq

/-- `generateSuggestions` (`geminiService.ts`): return the parsed
`response.text` when the call succeeds with truthy text and `JSON.parse`
succeeds; every failure path (rejection, absent or empty text, parse error)
falls into the catch handler and returns the fixed fallback. The JSON parser
is a parameter; `none` models a `JSON.parse` exception. -/
def generateSuggestions (remote : RemoteTextResult)
    (parseJson : String → Option (List Suggestion)) : List Suggestion :=
  match remote with
  | RemoteTextResult.err => fallbackSuggestions
  | RemoteTextResult.ok none => fallbackSuggestions
  | RemoteTextResult.ok (some t) =>
    if t == "" then fallbackSuggestions
    else
      match parseJson t with
      | none => fallbackSuggestions
      | some suggs => suggs

/-! ### History store (`App.tsx`, `saveCurrentSession`) -/

/-- Title computed in `saveCurrentSession`:
`messages[0].text.slice(0, 30) + (messages[0].text.length > 30 ? dots : empty)`. -/
def rawTitle (text : String) : String :=
  jsSlice text 30 ++ (if 30 < jsLength text then "..." else "")

/-- Title actually stored: `title || "New Chat"` (an empty string is falsy in
JS, so an empty title is replaced by the fixed default). -/
def deriveTitle (text : String) : String :=
  if rawTitle text = "" then "New Chat" else rawTitle text

/-- Conversation id used by a save: `activeChatId || Date.now().toString()`. -/
def sessionChatId (now : Nat) (activeChatId : Option Nat) : Nat :=
  match activeChatId with
  | some cid => cid
  | none => now

/-- The `ChatHistoryItem` built by `saveCurrentSession` for a non-empty
timeline. -/
def sessionItem (now : Nat) (m0 : Message) (messages : List Message) (chatId : Nat) :
    ChatHistoryItem :=
  { id := chatId, title := deriveTitle m0.text, messages := messages, timestamp := now }

/-- `saveCurrentSession` (`App.tsx`): no-op on an empty timeline; otherwise
upsert — if an item with the conversation id exists, replace it in place via
`map`, else prepend the new item. -/
def saveSession (now : Nat) (messages : List Message) (activeChatId : Option Nat)
    (history : List ChatHistoryItem) : List ChatHistoryItem :=
  match messages with
  | [] => history
  | m0 :: _ =>
    let chatId := sessionChatId now activeChatId
    let newItem := sessionItem now m0 messages chatId
    if history.any (fun item => item.id == chatId) then
      history.map (fun item => if item.id == chatId then newItem else item)
    else
      newItem :: history

/-- `saveCurrentSession` applied to the live state. -/
def saveCurrentSession (now : Nat) (s : AppState) : List ChatHistoryItem :=
  saveSession now s.messages s.activeChatId s.history

/-- A sequence of saves applied in order; each entry carries the clock value,
the timeline and the active conversation id of that save. -/
def runSaves (saves : List (Nat × List Message × Option Nat))
    (history : List ChatHistoryItem) : List ChatHistoryItem :=
  match saves with
  | [] => history
  | (now, msgs, cid) :: rest => runSaves rest (saveSession now msgs cid history)

/-! ### Conversation engine (`App.tsx`, `handleSubmit` and navigation) -/

/-- The user message appended by `handleSubmit`. -/
def mkUserMessage (now : Nat) (text : String) (atts : List Attachment) : Message :=
  { id := now, text := text, sender := Sender.user, timestamp := now, attachments := some atts }

/-- The AI placeholder allocated by `handleSubmit`
(`aiMessageId = (Date.now() + 1).toString()`, empty text). -/
def mkPlaceholder (now : Nat) : Message :=
  { id := now + 1, text := "", sender := Sender.ai, timestamp := now }

/-- The fixed error notice appended by the catch handler of `handleSubmit`. -/
def errorNoticeText : String :=
  "I encountered an error connecting to the AI. Please check your API key and internet connection."

/-- The error-notice AI message appended by the catch handler. -/
def mkErrorMessage (errNow : Nat) : Message :=
  { id := errNow, text := errorNoticeText, sender := Sender.ai, timestamp := errNow }

/-- The chunk callback passed to `sendMessageStream` (`App.tsx`): the
`setMessages(prev => ...)` updater inspects `prev[prev.length - 1]`. On an
empty `prev` this reads `.id` of `undefined` — a TypeError in the source —
modelled as `none`. -/
def chunkUpdater (aiMessageId : Nat) (placeholder : Message) (fullResponse : String)
    (prev : List Message) : Option (List Message) :=
  match prev.getLast? with
  | none => none
  | some lastMsg =>
    if lastMsg.id = aiMessageId then
      some (prev.dropLast ++ [{ lastMsg with text := fullResponse }])
    else
      some (prev ++ [{ placeholder with text := fullResponse }])

/-- Folding the delivered chunks through the callback, threading the
`fullResponse` accumulator (`fullResponse += chunk`). -/
def runChunks (aiMessageId : Nat) (placeholder : Message) :
    List String → String → List Message → Option (String × List Message)
  | [], acc, msgs => some (acc, msgs)
  | c :: cs, acc, msgs =>
    match chunkUpdater aiMessageId placeholder (acc ++ c) msgs with
    | none => none
    | some msgs2 => runChunks aiMessageId placeholder cs (acc ++ c) msgs2

/-- Concatenation of a chunk list in arrival order. -/
def concatStr : List String → String
  | [] => ""
  | c :: cs => c ++ concatStr cs

/-- Outcome of the remote stream for one submit: it either completes after
yielding `raw`, or rejects after yielding `raw`. -/
inductive StreamOutcome where
  | success (raw : List String)
  | failure (raw : List String)
deriving DecidableEq

/-- Result of a submit: the final state, and whether `sendMessageStream` was
invoked. -/
structure SubmitResult where
  state : AppState
  remoteCalled : Bool
deriving DecidableEq

/-- The synchronous prologue of an accepted `handleSubmit`: allocate a
conversation id if absent, append the user message with a snapshot of the
attachments, clear the input and the attachments buffer, set the in-flight
flag. -/
def submitPrologue (now : Nat) (s : AppState) : AppState :=
  { s with
    messages := s.messages ++ [mkUserMessage now (jsTrim s.inputText) s.attachments],
    inputText := "",
    attachments := [],
    isLoading := true,
    activeChatId := if s.activeChatId.isNone then some now else s.activeChatId }

/-- `handleSubmit` (`App.tsx`): reject when the trimmed input is empty and no
attachment is buffered, or when already loading; otherwise run the prologue,
fold the delivered chunks into the timeline, and on stream rejection append
the error notice; finally clear the in-flight flag. `none` models the
TypeError of a chunk callback firing on an empty timeline, which cannot
happen inside `handleSubmit` itself. -/
def handleSubmit (now errNow : Nat) (outcome : StreamOutcome) (s : AppState) :
    Option SubmitResult :=
  if (jsTrim s.inputText == "" && s.attachments.isEmpty) || s.isLoading then
    some { state := s, remoteCalled := false }
  else
    let s1 := submitPrologue now s
    let ph := mkPlaceholder now
    match outcome with
    | StreamOutcome.success raw =>
      match runChunks (now + 1) ph (deliveredChunks raw) "" s1.messages with
      | none => none
      | some (_, msgs) =>
        some { state := { s1 with messages := msgs, isLoading := false }, remoteCalled := true }
    | StreamOutcome.failure raw =>
      match runChunks (now + 1) ph (deliveredChunks raw) "" s1.messages with
      | none => none
      | some (_, msgs) =>
        some { state := { s1 with
                          messages := msgs ++ [mkErrorMessage errNow],
                          isLoading := false },
               remoteCalled := true }

/-- `handleNewChat` (`App.tsx`): save the outgoing timeline when non-empty,
then clear the timeline, the attachments buffer and the active conversation
id. (The remote session handle reset is not part of the claims.) -/
def handleNewChat (now : Nat) (s : AppState) : AppState :=
  let hist := if s.messages.isEmpty then s.history else saveCurrentSession now s
  { s with history := hist, messages := [], attachments := [], activeChatId := none }

/-- `loadHistoryItem` (`App.tsx`): save the outgoing timeline when non-empty
and under a different id, then replace the timeline wholesale and set the
active conversation id. -/
def loadHistoryItem (now : Nat) (item : ChatHistoryItem) (s : AppState) : AppState :=
  let hist :=
    if s.messages.isEmpty = false ∧ s.activeChatId ≠ some item.id then saveCurrentSession now s
    else s.history
  { s with
    history := hist,
    messages := item.messages,
    activeChatId := some item.id,
    attachments := [] }

/-- A message of a previously stored conversation, used to exercise the
stale-stream scenario. -/
def staleDemoLoaded : Message :=
  { id := 42, text := "old conversation text", sender := Sender.user, timestamp := 7 }

/-- An in-flight state: a submit at clock 0 is awaiting its stream (the
placeholder id is 1), and the user message is already on the timeline. -/
def staleDemoInFlight : AppState :=
  { messages := [mkUserMessage 0 "hi" []], inputText := "", attachments := [],
    isLoading := true, activeChatId := some 0, history := [] }

/-- A stored conversation the user loads while the stream is still running. -/
def staleDemoItem : ChatHistoryItem :=
  { id := 42, title := "old", messages := [staleDemoLoaded], timestamp := 7 }

/-! Helper lemmas -/

theorem foldl_push {α β : Type} (f : α → β) :
    ∀ (l : List α) (init : List β),
    l.foldl (fun ps a => ps ++ [f a]) init = init ++ l.map f
  | [], init => by simp
  | a :: l, init => by
    simp only [List.foldl_cons, List.map_cons, foldl_push f l (init ++ [f a])]
    simp

theorem splitOnComma_no_comma : ∀ l : List Char, ',' ∉ l → splitOnComma l = [l]
  | [], _ => rfl
  | c :: cs, h => by
    have hc : ¬ c = ',' := fun hh => h (by rw [hh]; exact List.mem_cons_self _ _)
    have ih := splitOnComma_no_comma cs (fun hm => h (List.mem_cons_of_mem c hm))
    simp [splitOnComma, hc, ih]

theorem splitOnComma_split : ∀ pre rest : List Char, ',' ∉ pre →
    splitOnComma (pre ++ ',' :: rest) = pre :: splitOnComma rest
  | [], rest, _ => by simp [splitOnComma]
  | c :: pre, rest, h => by
    have hc : ¬ c = ',' := fun hh => h (by rw [hh]; exact List.mem_cons_self _ _)
    have ih := splitOnComma_split pre rest (fun hm => h (List.mem_cons_of_mem c hm))
    simp [splitOnComma, hc, ih]

theorem concatStr_filter : ∀ raw : List String, concatStr (deliveredChunks raw) = concatStr raw
  | [] => rfl
  | c :: cs => by
    by_cases hc : c = ""
    · subst hc
      simpa [deliveredChunks, concatStr, String.empty_append] using concatStr_filter cs
    · simpa [deliveredChunks, concatStr, hc] using
        congrArg (fun t => c ++ t) (concatStr_filter cs)

/-! C5: request payload shape -/

/-- C5: with no attachments the remote send payload is exactly the raw text;
with attachments it is an ordered parts sequence beginning with one text part
(omitted when the text is empty) followed by exactly one inline-data part per
attachment, in attachment-list order, carrying that attachment's mimeType and
data. -/
theorem c5_payload_shape (text : String) (atts : List Attachment) :
    (atts = [] → buildMessageContent text atts = MessageContent.raw text) ∧
    (atts ≠ [] →
      buildMessageContent text atts =
        MessageContent.parts
          ((if text = "" then [] else [ReqPart.textPart text]) ++
            atts.map fun a => ReqPart.inlineData ⟨a.mimeType, a.data⟩)) := by
  constructor
  · intro h; subst h; simp [buildMessageContent]
  · intro h
    have hlen : 0 < atts.length := List.length_pos.mpr h
    by_cases ht : text = ""
    · simp [buildMessageContent, hlen, ht, foldl_push]
    · simp [buildMessageContent, hlen, ht, foldl_push]

/-- Witness for C5 at the spec's example: one image attachment and empty text
give exactly one part, the inline image, and no text part. -/
theorem c5_payload_shape_witness :
    buildMessageContent "" [{ mimeType := "image/png", data := "AAAA", fileName := "a.png" }] =
      MessageContent.parts [ReqPart.inlineData ⟨"image/png", "AAAA"⟩] := by
  have h := (c5_payload_shape "" [{ mimeType := "image/png", data := "AAAA", fileName := "a.png" }]).2
    (by simp)
  rw [h]
  rfl

/-! C9: attachment codec strips the data-URI framing -/

/-- C9: for a data URL of the form framing ++ comma ++ payload, where the
framing and the base64 payload contain no comma (true of every data URL the
FileReader produces), fileToBase64 returns exactly the payload, with the
scheme framing up to and including the comma stripped. -/
theorem c9_strips_data_url (pre pay : String)
    (hpre : ',' ∉ pre.toList) (hpay : ',' ∉ pay.toList) :
    fileToBase64 (pre ++ "," ++ pay) = some pay := by
  have h1 : (pre ++ "," ++ pay).toList = pre.toList ++ ',' :: pay.toList := by
    simp
  simp only [fileToBase64, h1, splitOnComma_split _ _ hpre, splitOnComma_no_comma _ hpay]
  simp only [List.getElem?_cons_succ, List.getElem?_cons_zero, Option.map_some']
  exact congrArg some (String.asString_toList pay)

/-- Witness for C9 on a concrete PNG data URL. -/
theorem c9_strips_data_url_witness :
    fileToBase64 ("data:image/png;base64" ++ "," ++ "iVBORw0KGgo") = some "iVBORw0KGgo" :=
  c9_strips_data_url "data:image/png;base64" "iVBORw0KGgo" (by decide) (by decide)

/-! C10: suggestion provider falls back on failure -/

/-- C10: every failure path of generateSuggestions — remote rejection, absent
response text, empty response text, or a JSON parse error — returns the fixed
fallback list of exactly 4 icon/text items; the operation is total, so no
error propagates to the caller. -/
theorem c10_suggestions_fallback (parseJson : String → Option (List Suggestion)) (t : String) :
    generateSuggestions RemoteTextResult.err parseJson = fallbackSuggestions ∧
    generateSuggestions (RemoteTextResult.ok none) parseJson = fallbackSuggestions ∧
    generateSuggestions (RemoteTextResult.ok (some "")) parseJson = fallbackSuggestions ∧
    (parseJson t = none →
      generateSuggestions (RemoteTextResult.ok (some t)) parseJson = fallbackSuggestions) ∧
    fallbackSuggestions.length = 4 := by
  refine ⟨rfl, rfl, rfl, ?_, rfl⟩
  intro hp
  by_cases ht : t = ""
  · subst ht; rfl
  · simp [generateSuggestions, ht, hp]

/-- Witness for C10 with a concrete unparseable response. -/
theorem c10_suggestions_fallback_witness :
    generateSuggestions (RemoteTextResult.ok (some "not json")) (fun _ => none) =
      fallbackSuggestions :=
  (c10_suggestions_fallback (fun _ => none) "not json").2.2.2.1 rfl

/-! C8: title derivation -/

/-- C8 counterexample: an empty first-message text (reachable by an
attachment-only submit) has length at most 30, yet the stored title is the
fixed default, not the unmodified text. -/
theorem c8_title_counterexample :
    jsLength "" ≤ 30 ∧ deriveTitle "" = "New Chat" ∧ deriveTitle "" ≠ "" := by
  refine ⟨by decide, by decide, by decide⟩

/-- C8 (amended): for a non-empty first-message text the title is the
unmodified text when its length is at most 30, and the first 30 characters
followed by the ellipsis marker when longer; for an empty text the title is
the fixed default instead. -/
theorem c8_title_derivation (text : String) (hne : text ≠ "") :
    (jsLength text ≤ 30 → deriveTitle text = text) ∧
    (30 < jsLength text → deriveTitle text = jsSlice text 30 ++ "...") := by
  constructor
  · intro hle
    have hslice : jsSlice text 30 = text := by
      simp only [jsSlice, List.take_of_length_le hle, String.asString_toList]
    have hraw : rawTitle text = text := by
      simp [rawTitle, Nat.not_lt.mpr hle, hslice, String.append_empty]
    simp [deriveTitle, hraw, hne]
  · intro hgt
    have hraw : rawTitle text = jsSlice text 30 ++ "..." := by
      simp [rawTitle, hgt]
    have hne2 : jsSlice text 30 ++ "..." ≠ "" := by
      intro hcon
      have := congrArg String.toList hcon
      simp [jsSlice] at this
    simp [deriveTitle, hraw, hne2]

/-- Witness for C8 at a 5-character and a 45-character text. -/
theorem c8_title_derivation_witness :
    deriveTitle "hello" = "hello" ∧
    deriveTitle "aaaaaaaaaaaaaaaaaaaaaaaaaaaaaaaaaaaaaaaaaaaaa" =
      jsSlice "aaaaaaaaaaaaaaaaaaaaaaaaaaaaaaaaaaaaaaaaaaaaa" 30 ++ "..." :=
  ⟨(c8_title_derivation "hello" (by decide)).1 (by decide),
   (c8_title_derivation "aaaaaaaaaaaaaaaaaaaaaaaaaaaaaaaaaaaaaaaaaaaaa" (by decide)).2 (by decide)⟩

/-! Engine lemmas -/

theorem runChunks_matched (aiId : Nat) (ph : Message) (hid : ph.id = aiId) :
    ∀ (cs : List String) (acc : String) (msgs0 : List Message),
    runChunks aiId ph cs acc (msgs0 ++ [{ ph with text := acc }]) =
      some (acc ++ concatStr cs, msgs0 ++ [{ ph with text := acc ++ concatStr cs }])
  | [], acc, msgs0 => by
    simp [runChunks, concatStr, String.append_empty]
  | c :: cs, acc, msgs0 => by
    have step : chunkUpdater aiId ph (acc ++ c) (msgs0 ++ [{ ph with text := acc }]) =
        some (msgs0 ++ [{ ph with text := acc ++ c }]) := by
      simp [chunkUpdater, hid]
    have ih := runChunks_matched aiId ph hid cs (acc ++ c) msgs0
    simp only [runChunks, step, ih, concatStr, String.append_assoc]

theorem runChunks_fresh (aiId : Nat) (ph : Message) (hid : ph.id = aiId)
    (u : Message) (hu : ¬ u.id = aiId) (msgs0 : List Message) (c : String) (cs : List String) :
    runChunks aiId ph (c :: cs) "" (msgs0 ++ [u]) =
      some (concatStr (c :: cs),
        (msgs0 ++ [u]) ++ [{ ph with text := concatStr (c :: cs) }]) := by
  have step : chunkUpdater aiId ph ("" ++ c) (msgs0 ++ [u]) =
      some ((msgs0 ++ [u]) ++ [{ ph with text := "" ++ c }]) := by
    simp [chunkUpdater, hu]
  have ih := runChunks_matched aiId ph hid cs ("" ++ c) (msgs0 ++ [u])
  simp only [String.empty_append] at step ih
  simp only [runChunks, String.empty_append, step, ih, concatStr, String.append_assoc]

theorem submit_success_eq (now errNow : Nat) (raw : List String) (s : AppState)
    (hGuard : ((jsTrim s.inputText == "" && s.attachments.isEmpty) || s.isLoading) = false) :
    handleSubmit now errNow (StreamOutcome.success raw) s =
      some { state :=
               { messages := s.messages ++ [mkUserMessage now (jsTrim s.inputText) s.attachments]
                   ++ (if deliveredChunks raw = [] then []
                       else [{ mkPlaceholder now with text := concatStr raw }]),
                 inputText := "",
                 attachments := [],
                 isLoading := false,
                 activeChatId := if s.activeChatId.isNone then some now else s.activeChatId,
                 history := s.history },
             remoteCalled := true } := by
  have hg : ¬ ((jsTrim s.inputText == "" && s.attachments.isEmpty) || s.isLoading) = true := by
    simp [hGuard]
  cases hd : deliveredChunks raw with
  | nil =>
    simp only [handleSubmit, if_neg hg, hd, runChunks, submitPrologue]
    simp
  | cons c cs =>
    have hu : ¬ (mkUserMessage now (jsTrim s.inputText) s.attachments).id = now + 1 := by
      simp [mkUserMessage]
    have hrun := runChunks_fresh (now + 1) (mkPlaceholder now) rfl _ hu s.messages c cs
    have hcat : concatStr (c :: cs) = concatStr raw := by rw [← hd, concatStr_filter]
    simp only [handleSubmit, if_neg hg, hd, submitPrologue]
    rw [hrun]
    simp [hcat]

theorem submit_failure_eq (now errNow : Nat) (raw : List String) (s : AppState)
    (hGuard : ((jsTrim s.inputText == "" && s.attachments.isEmpty) || s.isLoading) = false) :
    handleSubmit now errNow (StreamOutcome.failure raw) s =
      some { state :=
               { messages := (s.messages ++ [mkUserMessage now (jsTrim s.inputText) s.attachments]
                   ++ (if deliveredChunks raw = [] then []
                       else [{ mkPlaceholder now with text := concatStr raw }]))
                   ++ [mkErrorMessage errNow],
                 inputText := "",
                 attachments := [],
                 isLoading := false,
                 activeChatId := if s.activeChatId.isNone then some now else s.activeChatId,
                 history := s.history },
             remoteCalled := true } := by
  have hg : ¬ ((jsTrim s.inputText == "" && s.attachments.isEmpty) || s.isLoading) = true := by
    simp [hGuard]
  cases hd : deliveredChunks raw with
  | nil =>
    simp only [handleSubmit, if_neg hg, hd, runChunks, submitPrologue]
    simp
  | cons c cs =>
    have hu : ¬ (mkUserMessage now (jsTrim s.inputText) s.attachments).id = now + 1 := by
      simp [mkUserMessage]
    have hrun := runChunks_fresh (now + 1) (mkPlaceholder now) rfl _ hu s.messages c cs
    have hcat : concatStr (c :: cs) = concatStr raw := by rw [← hd, concatStr_filter]
    simp only [handleSubmit, if_neg hg, hd, submitPrologue]
    rw [hrun]
    simp [hcat]

/-! C1: stream folding and timeline growth -/

/-- C1 counterexample: a successful submit whose stream delivers zero
increments grows the timeline by exactly 1 (only the user message) and leaves
no AI message at all, contradicting the claimed growth of exactly 2 for every
n including n = 0. -/
theorem c1_growth_counterexample :
    (handleSubmit 0 9 (StreamOutcome.success [])
        { messages := [], inputText := "hi", attachments := [], isLoading := false,
          activeChatId := none, history := [] }).map
      (fun r => (r.state.messages.length, r.state.messages.map Message.sender)) =
      some (1, [Sender.user]) ∧
    (1 : Nat) ≠ 0 + 2 := by
  exact ⟨by decide, by decide⟩

/-- C1 (amended): for every accepted submit whose stream succeeds, if at
least one non-empty increment arrives the final AI message's text is the
concatenation of all increments in arrival order and the timeline grows by
exactly 2 (the user message and the AI message); if no non-empty increment
arrives, no AI message is created and the timeline grows by exactly 1. In
both cases isLoading ends false. -/
theorem c1_stream_concatenation (now errNow : Nat) (raw : List String) (s : AppState)
    (hGuard : ((jsTrim s.inputText == "" && s.attachments.isEmpty) || s.isLoading) = false) :
    ∃ r : SubmitResult,
      handleSubmit now errNow (StreamOutcome.success raw) s = some r ∧
      r.state.isLoading = false ∧
      (deliveredChunks raw ≠ [] →
        r.state.messages =
          s.messages ++ [mkUserMessage now (jsTrim s.inputText) s.attachments,
            { mkPlaceholder now with text := concatStr raw }] ∧
        r.state.messages.length = s.messages.length + 2) ∧
      (deliveredChunks raw = [] →
        r.state.messages =
          s.messages ++ [mkUserMessage now (jsTrim s.inputText) s.attachments] ∧
        r.state.messages.length = s.messages.length + 1) := by
  refine ⟨_, submit_success_eq now errNow raw s hGuard, rfl, ?_, ?_⟩
  · intro hne
    rw [if_neg hne]
    constructor
    · simp
    · simp
  · intro heq
    rw [if_pos heq]
    constructor
    · simp
    · simp

/-- Witness for C1 at the spec's example: submit "hi" with stream
["Hel", "lo!"] ends with timeline [User "hi", AI "Hello!"]. -/
theorem c1_stream_concatenation_witness :
    (handleSubmit 0 9 (StreamOutcome.success ["Hel", "lo!"])
        { messages := [], inputText := "hi", attachments := [], isLoading := false,
          activeChatId := none, history := [] }).map
      (fun r => (r.state.messages.map (fun mm => (mm.sender, mm.text)), r.state.isLoading)) =
      some ([(Sender.user, "hi"), (Sender.ai, "Hello!")], false) := by
  obtain ⟨r, h1, h2, h3, -⟩ := c1_stream_concatenation 0 9 ["Hel", "lo!"]
    { messages := [], inputText := "hi", attachments := [], isLoading := false,
      activeChatId := none, history := [] } (by decide)
  obtain ⟨h4, -⟩ := h3 (by decide)
  rw [h1]
  simp only [Option.map_some']
  rw [h4, h2]
  decide

/-! C2: failed stream -/

/-- C2 counterexample: a submit whose stream rejects before any increment
leaves no placeholder AI message in the timeline — only the user message and
the single error notice — contradicting the claim that the placeholder is
present after every failed submit. -/
theorem c2_failure_counterexample :
    (handleSubmit 0 9 (StreamOutcome.failure [])
        { messages := [], inputText := "hi", attachments := [], isLoading := false,
          activeChatId := none, history := [] }).map
      (fun r => r.state.messages.map (fun mm => (mm.id, mm.sender))) =
      some [(0, Sender.user), (9, Sender.ai)] ∧
    (mkPlaceholder 0).id = 1 ∧
    ((1 : Nat), Sender.ai) ∉ [((0 : Nat), Sender.user), (9, Sender.ai)] := by
  exact ⟨by decide, rfl, by decide⟩

/-- C2 (amended): after every accepted submit whose stream rejects, exactly
one error-notice AI message (fixed text) is appended last and isLoading is
false; the placeholder AI message is present, carrying the partial
concatenation, exactly when at least one non-empty increment arrived before
the failure — a stream failing before any increment leaves no placeholder.
The error notice's id differs from the placeholder's whenever the catch-time
clock differs from now + 1. -/
theorem c2_failure_appends_error (now errNow : Nat) (raw : List String) (s : AppState)
    (hGuard : ((jsTrim s.inputText == "" && s.attachments.isEmpty) || s.isLoading) = false)
    (hclock : errNow ≠ now + 1) :
    ∃ r : SubmitResult,
      handleSubmit now errNow (StreamOutcome.failure raw) s = some r ∧
      r.state.messages =
        (s.messages ++ [mkUserMessage now (jsTrim s.inputText) s.attachments]
          ++ (if deliveredChunks raw = [] then []
              else [{ mkPlaceholder now with text := concatStr raw }]))
          ++ [mkErrorMessage errNow] ∧
      (mkErrorMessage errNow).sender = Sender.ai ∧
      (mkErrorMessage errNow).text = errorNoticeText ∧
      (mkErrorMessage errNow).id ≠ (mkPlaceholder now).id ∧
      r.state.isLoading = false := by
  refine ⟨_, submit_failure_eq now errNow raw s hGuard, rfl, rfl, rfl, ?_, rfl⟩
  simpa [mkErrorMessage, mkPlaceholder] using hclock

/-- Witness for C2: a failure after the single increment "par" leaves the
placeholder with partial text plus one error notice, and isLoading false. -/
theorem c2_failure_appends_error_witness :
    (handleSubmit 0 9 (StreamOutcome.failure ["par"])
        { messages := [], inputText := "hi", attachments := [], isLoading := false,
          activeChatId := none, history := [] }).map
      (fun r => (r.state.messages.map (fun mm => (mm.sender, mm.text)), r.state.isLoading)) =
      some ([(Sender.user, "hi"), (Sender.ai, "par"), (Sender.ai, errorNoticeText)], false) := by
  obtain ⟨r, h1, h2, -, -, -, h6⟩ := c2_failure_appends_error 0 9 ["par"]
    { messages := [], inputText := "hi", attachments := [], isLoading := false,
      activeChatId := none, history := [] } (by decide) (by decide)
  rw [h1]
  simp only [Option.map_some']
  rw [h2, h6]
  decide

/-! C4: submit guard -/

/-- C4: while a send is in flight, and likewise when the trimmed input is
empty with no buffered attachment, submit is a complete no-op: the state
(timeline, isLoading, attachments buffer, active conversation id, history)
is returned unchanged and the remote send operation is not invoked. -/
theorem c4_reject_is_noop (now errNow : Nat) (outcome : StreamOutcome) (s : AppState)
    (h : s.isLoading = true ∨ (jsTrim s.inputText = "" ∧ s.attachments = [])) :
    handleSubmit now errNow outcome s = some { state := s, remoteCalled := false } := by
  have hg : ((jsTrim s.inputText == "" && s.attachments.isEmpty) || s.isLoading) = true := by
    rcases h with h | ⟨h1, h2⟩
    · simp [h]
    · simp [h1, h2]
  simp [handleSubmit, hg]

/-- Witness for C4: submitting while loading, and submitting whitespace-only
input with no attachments, both leave the state untouched without a remote
call. -/
theorem c4_reject_is_noop_witness :
    handleSubmit 3 9 (StreamOutcome.success ["x"])
        { messages := [], inputText := "hi", attachments := [], isLoading := true,
          activeChatId := none, history := [] } =
      some { state := { messages := [], inputText := "hi", attachments := [], isLoading := true,
                        activeChatId := none, history := [] },
             remoteCalled := false } ∧
    handleSubmit 3 9 (StreamOutcome.success ["x"])
        { messages := [], inputText := "   ", attachments := [], isLoading := false,
          activeChatId := none, history := [] } =
      some { state := { messages := [], inputText := "   ", attachments := [], isLoading := false,
                        activeChatId := none, history := [] },
             remoteCalled := false } :=
  ⟨c4_reject_is_noop 3 9 (StreamOutcome.success ["x"]) _ (Or.inl rfl),
   c4_reject_is_noop 3 9 (StreamOutcome.success ["x"]) _ (Or.inr ⟨by decide, rfl⟩)⟩

/-! C7: placeholder is created lazily by the first increment -/

/-- C7: immediately after an accepted submit and before any increment, the
timeline is the old one plus only the new user message (every AI message
present was already there); the AI placeholder is appended by the first
non-empty increment's callback; and a stream delivering zero non-empty
increments leaves no AI message for that submit. -/
theorem c7_lazy_placeholder (now errNow : Nat) (raw : List String) (s : AppState)
    (hGuard : ((jsTrim s.inputText == "" && s.attachments.isEmpty) || s.isLoading) = false) :
    (submitPrologue now s).messages =
      s.messages ++ [mkUserMessage now (jsTrim s.inputText) s.attachments] ∧
    (mkUserMessage now (jsTrim s.inputText) s.attachments).sender = Sender.user ∧
    (∀ m ∈ (submitPrologue now s).messages, m.sender = Sender.ai → m ∈ s.messages) ∧
    (∀ c : String,
      chunkUpdater (now + 1) (mkPlaceholder now) c ((submitPrologue now s).messages) =
        some ((submitPrologue now s).messages ++ [{ mkPlaceholder now with text := c }])) ∧
    (deliveredChunks raw = [] →
      ∃ r : SubmitResult,
        handleSubmit now errNow (StreamOutcome.success raw) s = some r ∧
        r.state.messages =
          s.messages ++ [mkUserMessage now (jsTrim s.inputText) s.attachments] ∧
        ∀ m ∈ r.state.messages, m.sender = Sender.ai → m ∈ s.messages) := by
  refine ⟨rfl, rfl, ?_, ?_, ?_⟩
  · intro m hm hai
    simp only [submitPrologue, List.mem_append, List.mem_singleton] at hm
    rcases hm with hm | hm
    · exact hm
    · rw [hm] at hai
      exact absurd hai (by simp [mkUserMessage])
  · intro c
    have hu : ¬ (mkUserMessage now (jsTrim s.inputText) s.attachments).id = now + 1 := by
      simp [mkUserMessage]
    simp [submitPrologue, chunkUpdater, hu]
  · intro hd
    refine ⟨_, submit_success_eq now errNow raw s hGuard, ?_, ?_⟩
    · simp [hd]
    · intro m hm hai
      simp only [hd, if_pos, List.append_nil, List.mem_append, List.mem_singleton] at hm
      rcases hm with hm | hm
      · exact hm
      · rw [hm] at hai
        exact absurd hai (by simp [mkUserMessage])

/-- Witness for C7: with stream [""] (one empty increment) the final timeline
of the submit of "hi" is the single user message; the prologue state likewise
contains only that message. -/
theorem c7_lazy_placeholder_witness :
    (submitPrologue 0
        { messages := [], inputText := "hi", attachments := [], isLoading := false,
          activeChatId := none, history := [] }).messages =
      [mkUserMessage 0 "hi" []] ∧
    (handleSubmit 0 9 (StreamOutcome.success [""])
        { messages := [], inputText := "hi", attachments := [], isLoading := false,
          activeChatId := none, history := [] }).map
      (fun r => r.state.messages) = some [mkUserMessage 0 "hi" []] := by
  obtain ⟨h1, -, -, -, h5⟩ := c7_lazy_placeholder 0 9 [""]
    { messages := [], inputText := "hi", attachments := [], isLoading := false,
      activeChatId := none, history := [] } (by decide)
  obtain ⟨r, hr, hmsgs, -⟩ := h5 (by decide)
  constructor
  · rw [h1]; decide
  · rw [hr]
    simp only [Option.map_some']
    rw [hmsgs]
    decide

/-! C3: stale streams are not scoped to their attempt -/

/-- C3: the source has no attempt scoping. After handleNewChat the timeline
is empty and a further increment from the abandoned stream makes the chunk
callback dereference undefined (modelled none); after loading another history
item, the same callback appends the stale placeholder with the abandoned
stream's accumulated text to the newly loaded conversation's timeline,
changing it. This refutes the claim that increments of an abandoned stream
have no effect on the newly active timeline. -/
theorem c3_stale_stream_corrupts :
    (handleNewChat 9 staleDemoInFlight).messages = [] ∧
    chunkUpdater 1 (mkPlaceholder 0) "He" [] = none ∧
    (loadHistoryItem 9 staleDemoItem staleDemoInFlight).messages = [staleDemoLoaded] ∧
    chunkUpdater 1 (mkPlaceholder 0) "He" [staleDemoLoaded] =
      some [staleDemoLoaded, { mkPlaceholder 0 with text := "He" }] ∧
    some [staleDemoLoaded, { mkPlaceholder 0 with text := "He" }] ≠
      some [staleDemoLoaded] := by
  exact ⟨by decide, rfl, by decide, by decide, by decide⟩

/-! C6: history store upsert -/

theorem saveSession_ids_nodup (now : Nat) (msgs : List Message) (cid : Option Nat)
    (history : List ChatHistoryItem)
    (h : (history.map fun it => it.id).Nodup) :
    ((saveSession now msgs cid history).map fun it => it.id).Nodup := by
  cases msgs with
  | nil => simpa [saveSession] using h
  | cons m0 ms =>
    simp only [saveSession]
    by_cases hany : (history.any fun item => item.id == sessionChatId now cid) = true
    · rw [if_pos hany]
      have hmap : ((history.map fun it =>
          if it.id == sessionChatId now cid then
            sessionItem now m0 (m0 :: ms) (sessionChatId now cid) else it).map
            fun it => it.id) = history.map fun it => it.id := by
        rw [List.map_map]
        refine List.map_congr_left ?_
        intro a _
        by_cases ha : a.id = sessionChatId now cid
        · simp [Function.comp, ha, sessionItem]
        · simp [Function.comp, ha]
      rw [hmap]
      exact h
    · rw [if_neg hany]
      have hnotin : sessionChatId now cid ∉ history.map fun it => it.id := by
        intro hmem
        obtain ⟨a, ha, hid⟩ := List.mem_map.mp hmem
        exact hany (List.any_eq_true.mpr ⟨a, ha, by simp [hid]⟩)
      simp only [List.map_cons]
      exact List.nodup_cons.mpr ⟨by simpa [sessionItem] using hnotin, h⟩

theorem runSaves_ids_nodup :
    ∀ (saves : List (Nat × List Message × Option Nat)) (history : List ChatHistoryItem),
    (history.map fun it => it.id).Nodup →
    ((runSaves saves history).map fun it => it.id).Nodup
  | [], _, h => h
  | (now, msgs, cid) :: rest, history, h =>
    runSaves_ids_nodup rest _ (saveSession_ids_nodup now msgs cid history h)

/-- C6: saving an empty timeline is a no-op on the history collection; saving
a non-empty timeline under an id that is already present replaces that item
in place (same length, every position unchanged except the matching id, which
receives the new item); under a fresh id the new item is prepended; every
item carrying the saved id after a save holds the latest save's messages and
timestamp; id-uniqueness of the collection is preserved by each save and
therefore holds after any sequence of saves from an empty collection. -/
theorem c6_history_upsert (now : Nat) (m0 : Message) (ms : List Message) (cid : Option Nat)
    (history : List ChatHistoryItem) :
    saveSession now [] cid history = history ∧
    ((history.any fun it => it.id == sessionChatId now cid) = true →
      (saveSession now (m0 :: ms) cid history).length = history.length ∧
      ∀ i, (hi : i < history.length) →
        (saveSession now (m0 :: ms) cid history)[i]? =
          some (if history[i].id = sessionChatId now cid then
            sessionItem now m0 (m0 :: ms) (sessionChatId now cid) else history[i])) ∧
    ((history.any fun it => it.id == sessionChatId now cid) = false →
      saveSession now (m0 :: ms) cid history =
        sessionItem now m0 (m0 :: ms) (sessionChatId now cid) :: history) ∧
    (∀ it ∈ saveSession now (m0 :: ms) cid history,
      it.id = sessionChatId now cid → it.messages = m0 :: ms ∧ it.timestamp = now) ∧
    ((history.map fun it => it.id).Nodup →
      ((saveSession now (m0 :: ms) cid history).map fun it => it.id).Nodup) ∧
    (∀ saves : List (Nat × List Message × Option Nat),
      ((runSaves saves []).map fun it => it.id).Nodup) := by
  refine ⟨rfl, ?_, ?_, ?_, saveSession_ids_nodup now (m0 :: ms) cid history,
    fun saves => runSaves_ids_nodup saves [] (by simp)⟩
  · intro hany
    constructor
    · simp only [saveSession, if_pos hany, List.length_map]
    · intro i hi
      simp only [saveSession, if_pos hany, List.getElem?_map,
        List.getElem?_eq_getElem hi, Option.map_some']
      by_cases hid : history[i].id = sessionChatId now cid
      · simp [hid]
      · simp [hid]
  · intro hany
    have hg : ¬ (history.any fun item => item.id == sessionChatId now cid) = true := by
      rw [hany]
      exact Bool.false_ne_true
    simp only [saveSession, if_neg hg]
  · intro it hit hid
    simp only [saveSession] at hit
    by_cases hany : (history.any fun item => item.id == sessionChatId now cid) = true
    · rw [if_pos hany] at hit
      obtain ⟨a, ha, hae⟩ := List.mem_map.mp hit
      by_cases haid : a.id = sessionChatId now cid
      · rw [← hae]
        simp [haid, sessionItem]
      · rw [← hae] at hid
        simp [haid] at hid
    · rw [if_neg hany] at hit
      rcases List.mem_cons.mp hit with hit | hit
      · rw [hit]
        exact ⟨rfl, rfl⟩
      · exact absurd (List.any_eq_true.mpr ⟨it, hit, by simp [hid]⟩) hany

/-- Witness for C6: a save under a fresh id prepends, a save of an empty
timeline is a no-op, and a second save under an existing id replaces in
place. -/
theorem c6_history_upsert_witness :
    saveSession 20 [] (some 7)
        [{ id := 7, title := "t", messages := [], timestamp := 10 }] =
      [{ id := 7, title := "t", messages := [], timestamp := 10 }] ∧
    saveSession 20 [{ id := 1, text := "first", sender := Sender.user, timestamp := 1 }]
        (some 9) [{ id := 7, title := "t", messages := [], timestamp := 10 }] =
      sessionItem 20 { id := 1, text := "first", sender := Sender.user, timestamp := 1 }
          [{ id := 1, text := "first", sender := Sender.user, timestamp := 1 }]
          (sessionChatId 20 (some 9)) ::
        [{ id := 7, title := "t", messages := [], timestamp := 10 }] ∧
    (saveSession 20 [{ id := 1, text := "first", sender := Sender.user, timestamp := 1 }]
        (some 7) [{ id := 7, title := "t", messages := [], timestamp := 10 }])[0]? =
      some (sessionItem 20 { id := 1, text := "first", sender := Sender.user, timestamp := 1 }
        [{ id := 1, text := "first", sender := Sender.user, timestamp := 1 }]
        (sessionChatId 20 (some 7))) := by
  refine ⟨(c6_history_upsert 20 { id := 1, text := "first", sender := Sender.user, timestamp := 1 }
      [] (some 7) [{ id := 7, title := "t", messages := [], timestamp := 10 }]).1,
    (c6_history_upsert 20 { id := 1, text := "first", sender := Sender.user, timestamp := 1 }
      [] (some 9) [{ id := 7, title := "t", messages := [], timestamp := 10 }]).2.2.1 (by decide),
    ?_⟩
  have h := ((c6_history_upsert 20 { id := 1, text := "first", sender := Sender.user, timestamp := 1 }
      [] (some 7) [{ id := 7, title := "t", messages := [], timestamp := 10 }]).2.1
    (by decide)).2 0 (by decide)
  rw [h]
  decide

end Elio
